import Mathlib

/-!
# Verification of the GeoGaussian training-loop scheduler (src/train.py)

This development shallowly embeds the control flow of the `training` function
of `src/train.py` as a trace of scheduler events.  Each loop iteration emits a
list of events in exactly the order the corresponding statements execute in the
source; the per-iteration guard conditions are transcribed literally from the
source's `if`/`elif` structure:

* geometric-consistency loss term (lines 108-127): added when `KNN_index` is
  not `None` and at least one primitive is visible;
* `loss.backward()` (line 129);
* gradient-statistics update (lines 159-162): `max_radii2D` update plus
  `add_densification_stats`, guarded by `iteration < opt.densify_until_iter`;
* `densify_and_prune` plus the immediately following `findKNN` rebuild
  (lines 164-167), guarded by `iteration > opt.densify_from_iter and
  iteration % opt.densification_interval == 0` inside the same window, with
  `size_threshold = 20 if iteration > opt.opacity_reset_interval else None`
  (line 165);
* `reset_opacity` (lines 170-171), guarded by
  `iteration % opt.opacity_reset_interval == 0 or
  (dataset.white_background and iteration == opt.densify_from_iter)`
  inside the same window;
* post-window `findKNN` refresh (lines 172-174), guarded by
  `iteration > opt.densify_until_iter` and `iteration % 3000 == 0`;
* `optimizer.step()` and `optimizer.zero_grad()` (lines 184-187), guarded by
  `iteration < opt.iterations`;
* checkpoint save `torch.save((gaussians.capture(), iteration), ...)`
  (lines 189-191), guarded by `iteration in checkpoint_iterations`.

The mutable loop state tracked by the embedding is the part the claims need:
whether `KNN_index` is populated and, if so, against which structural version
of the primitive population it was built (`densify_and_prune` is the only
structural mutation; each call bumps the version).

The iteration range reproduces lines 43, 48-50, 63 and 68: with no checkpoint
the loop runs over `range(1, opt.iterations + 1)`; restoring a checkpoint
saved at iteration k runs over `range(k + 1, opt.iterations + 1)`.
-/

/-- The optimization/scheduling configuration fields of `opt` and `dataset`
read by the training loop (argument surface of `training` in src/train.py). -/
structure Opt where
  iterations : Nat
  densify_from_iter : Nat
  densify_until_iter : Nat
  densification_interval : Nat
  opacity_reset_interval : Nat
  white_background : Bool
  deriving Repr, DecidableEq

/-- One observable scheduler event of the training loop.  Every constructor
records the loop iteration it occurs in.  `geoTerm i gv pv` records that the
geometric-consistency term was added to the loss at iteration i, indexing a
KNN graph built at structural population version gv while the live population
is at structural version pv.  `densify i st` records a `densify_and_prune`
call with `size_threshold` argument st.  `saveCkpt i` records
`torch.save((gaussians.capture(), iteration), ...)`, i.e. the checkpoint pair
(model snapshot, iteration counter i). -/
inductive Event where
  | geoTerm (iter gv pv : Nat)
  | backward (iter : Nat)
  | statsUpdate (iter : Nat)
  | densify (iter : Nat) (sizeThreshold : Option Nat)
  | rebuild (iter : Nat)
  | resetOpacity (iter : Nat)
  | optStep (iter : Nat)
  | zeroGrad (iter : Nat)
  | saveCkpt (iter : Nat)
  deriving Repr, DecidableEq

/-- Loop state the claims depend on: `knnVersion` is the structural population
version `KNN_index` was built against (`none` models `KNN_index = None`), and
`popVersion` counts the `densify_and_prune` calls so far (each call is the
single structural mutation and compaction of the population). -/
structure LoopState where
  knnVersion : Option Nat
  popVersion : Nat
  deriving Repr, DecidableEq

/-- Line 59: `KNN_index = None`; no structural mutation has happened yet. -/
def initState : LoopState := ⟨none, 0⟩

/-- Guard of lines 159-162: the gradient-statistics update
(`max_radii2D` running max and `add_densification_stats`) runs iff
`iteration < opt.densify_until_iter`. -/
def statsFires (opt : Opt) (i : Nat) : Bool :=
  decide (i < opt.densify_until_iter)

/-- Guard of line 164 (inside the line-159 window): `densify_and_prune` runs
iff `iteration < opt.densify_until_iter` and
`iteration > opt.densify_from_iter` and
`iteration % opt.densification_interval == 0`. -/
def densifyFires (opt : Opt) (i : Nat) : Bool :=
  statsFires opt i && decide (opt.densify_from_iter < i) &&
    (i % opt.densification_interval == 0)

/-- Line 165: `size_threshold = 20 if iteration > opt.opacity_reset_interval
else None`. -/
def sizeThresholdArg (opt : Opt) (i : Nat) : Option Nat :=
  if opt.opacity_reset_interval < i then some 20 else none

/-- Guard of line 170 (inside the line-159 window): `reset_opacity` runs iff
`iteration < opt.densify_until_iter` and (`iteration %
opt.opacity_reset_interval == 0` or (`dataset.white_background` and
`iteration == opt.densify_from_iter`)). -/
def resetFires (opt : Opt) (i : Nat) : Bool :=
  statsFires opt i &&
    ((i % opt.opacity_reset_interval == 0) ||
      (opt.white_background && (i == opt.densify_from_iter)))

/-- Guard of lines 172-173: the post-window `findKNN` refresh runs iff
`iteration > opt.densify_until_iter` and `iteration % 3000 == 0`. -/
def postRebuildFires (opt : Opt) (i : Nat) : Bool :=
  decide (opt.densify_until_iter < i) && (i % 3000 == 0)

/-- Guard of line 185: the optimizer step and gradient clear run iff
`iteration < opt.iterations`. -/
def stepFires (opt : Opt) (i : Nat) : Bool :=
  decide (i < opt.iterations)

/-- Lines 108-127: the geometric-consistency term is added to the loss iff
`KNN_index != None` and `visibility_filter.sum() > 0`.  The emitted event
records the graph's build version and the current structural version. -/
def geoSeg (s : LoopState) (vis : Bool) (i : Nat) : List Event :=
  match s.knnVersion with
  | some gv => if vis then [Event.geoTerm i gv s.popVersion] else []
  | none => []

/-- The events of one loop iteration i, in source order (vis is whether at
least one primitive is visible in this iteration's render, i.e.
`visibility_filter.sum() > 0`; ckpts is `checkpoint_iterations`). -/
def iterEvents (opt : Opt) (s : LoopState) (vis : Bool) (ckpts : List Nat)
    (i : Nat) : List Event :=
  geoSeg s vis i
    ++ [Event.backward i]
    ++ (if statsFires opt i then [Event.statsUpdate i] else [])
    ++ (if densifyFires opt i then
          [Event.densify i (sizeThresholdArg opt i), Event.rebuild i] else [])
    ++ (if resetFires opt i then [Event.resetOpacity i] else [])
    ++ (if postRebuildFires opt i then [Event.rebuild i] else [])
    ++ (if stepFires opt i then [Event.optStep i, Event.zeroGrad i] else [])
    ++ (if ckpts.contains i then [Event.saveCkpt i] else [])

/-- State update of one loop iteration: `densify_and_prune` bumps the
structural version and `findKNN` (line 167) rebuilds the graph against it;
the post-window refresh (line 174) rebuilds against the unchanged version;
nothing else touches `KNN_index` or the population structure. -/
def stepState (opt : Opt) (i : Nat) (s : LoopState) : LoopState :=
  if densifyFires opt i then ⟨some (s.popVersion + 1), s.popVersion + 1⟩
  else if postRebuildFires opt i then ⟨some s.popVersion, s.popVersion⟩
  else s

/-- Run the loop body over a list of iteration numbers, concatenating each
iteration's events. -/
def runFrom (opt : Opt) (vis : Nat → Bool) (ckpts : List Nat) :
    List Nat → LoopState → List Event
  | [], _ => []
  | i :: rest, s =>
      iterEvents opt s (vis i) ckpts i ++
        runFrom opt vis ckpts rest (stepState opt i s)

/-- The iteration numbers executed by `for iteration in range(first_iter,
opt.iterations + 1)` after `first_iter += 1` (lines 63, 68): the list
firstIter + 1, ..., total. -/
def iterList (firstIter total : Nat) : List Nat :=
  List.range' (firstIter + 1) (total - firstIter)

/-- The full event trace of `training`.  `checkpoint = none` is a fresh run
(`first_iter = 0`, line 43); `checkpoint = some k` models restoring a
checkpoint pair saved at iteration k (lines 48-50 set `first_iter = k`). -/
def training (opt : Opt) (vis : Nat → Bool) (ckpts : List Nat)
    (checkpoint : Option Nat) : List Event :=
  runFrom opt vis ckpts (iterList (checkpoint.getD 0) opt.iterations) initState

/-- Event-at-iteration Bool predicates over traces, used to state the claims
and to evaluate concrete runs. -/
def isGeoAt (i : Nat) : Event → Bool
  | Event.geoTerm j _ _ => j == i
  | _ => false

def isBackwardAt (i : Nat) : Event → Bool
  | Event.backward j => j == i
  | _ => false

def isStatsAt (i : Nat) : Event → Bool
  | Event.statsUpdate j => j == i
  | _ => false

def isDensifyAt (i : Nat) : Event → Bool
  | Event.densify j _ => j == i
  | _ => false

def isRebuildAt (i : Nat) : Event → Bool
  | Event.rebuild j => j == i
  | _ => false

def isResetAt (i : Nat) : Event → Bool
  | Event.resetOpacity j => j == i
  | _ => false

def isStepAt (i : Nat) : Event → Bool
  | Event.optStep j => j == i
  | _ => false

def isZeroGradAt (i : Nat) : Event → Bool
  | Event.zeroGrad j => j == i
  | _ => false

def isSaveAt (i : Nat) : Event → Bool
  | Event.saveCkpt j => j == i
  | _ => false

def hasGeoAt (l : List Event) (i : Nat) : Bool := l.any (isGeoAt i)

def hasStatsAt (l : List Event) (i : Nat) : Bool := l.any (isStatsAt i)

def hasDensifyAt (l : List Event) (i : Nat) : Bool := l.any (isDensifyAt i)

def hasRebuildAt (l : List Event) (i : Nat) : Bool := l.any (isRebuildAt i)

def hasResetAt (l : List Event) (i : Nat) : Bool := l.any (isResetAt i)

def hasStepAt (l : List Event) (i : Nat) : Bool := l.any (isStepAt i)

def hasBackwardAt (l : List Event) (i : Nat) : Bool := l.any (isBackwardAt i)

def hasSaveAt (l : List Event) (i : Nat) : Bool := l.any (isSaveAt i)

/-- Scans a trace and checks that every geometric-consistency-term event is
strictly preceded by some neighbor-graph rebuild event; the Bool accumulator
records whether a rebuild has been seen so far. -/
def geoAfterRebuildAux : Bool → List Event → Bool
  | _, [] => true
  | _, Event.rebuild _ :: rest => geoAfterRebuildAux true rest
  | seen, Event.geoTerm _ _ _ :: rest => seen && geoAfterRebuildAux seen rest
  | seen, _ :: rest => geoAfterRebuildAux seen rest

/-- Whether a trace contains any rebuild event. -/
def hasRebuild (l : List Event) : Bool :=
  l.any fun e => match e with
    | Event.rebuild _ => true
    | _ => false

example :
    hasDensifyAt (training ⟨6, 1, 6, 2, 100, false⟩ (fun _ => true) [] none) 2
      = true := by decide

example :
    hasStatsAt (training ⟨3, 0, 2, 5, 7, false⟩ (fun _ => true) [] none) 2
      = false := by decide

/-! ## Helper lemmas: characterizing event occurrence in a trace -/

theorem any_if_nil (b : Bool) (l : List Event) (p : Event → Bool) :
    (if b then l else []).any p = (b && l.any p) := by
  cases b <;> simp

theorem countP_if_nil (b : Bool) (l : List Event) (p : Event → Bool) :
    (if b then l else []).countP p = if b then l.countP p else 0 := by
  cases b <;> simp

theorem geoSeg_any (s : LoopState) (v : Bool) (j : Nat) (p : Event → Bool)
    (h : ∀ gv pv, p (Event.geoTerm j gv pv) = false) :
    (geoSeg s v j).any p = false := by
  unfold geoSeg
  cases s.knnVersion <;> cases v <;> simp [h]

theorem geoSeg_countP (s : LoopState) (v : Bool) (j : Nat) (p : Event → Bool)
    (h : ∀ gv pv, p (Event.geoTerm j gv pv) = false) :
    (geoSeg s v j).countP p = 0 := by
  unfold geoSeg
  cases s.knnVersion <;> cases v <;> simp [h, List.countP_cons]

theorem chunk_any_backward (opt : Opt) (s : LoopState) (v : Bool)
    (ckpts : List Nat) (j i : Nat) :
    (iterEvents opt s v ckpts j).any (isBackwardAt i) = (j == i) := by
  rw [iterEvents]
  simp only [List.any_append, any_if_nil, List.any_cons, List.any_nil,
    geoSeg_any s v j (isBackwardAt i) (fun _ _ => rfl), isBackwardAt]
  cases hji : (j == i) <;> simp

theorem chunk_any_stats (opt : Opt) (s : LoopState) (v : Bool)
    (ckpts : List Nat) (j i : Nat) :
    (iterEvents opt s v ckpts j).any (isStatsAt i)
      = ((j == i) && statsFires opt j) := by
  rw [iterEvents]
  simp only [List.any_append, any_if_nil, List.any_cons, List.any_nil,
    geoSeg_any s v j (isStatsAt i) (fun _ _ => rfl), isStatsAt]
  cases hji : (j == i) <;> simp

theorem chunk_any_densify (opt : Opt) (s : LoopState) (v : Bool)
    (ckpts : List Nat) (j i : Nat) :
    (iterEvents opt s v ckpts j).any (isDensifyAt i)
      = ((j == i) && densifyFires opt j) := by
  rw [iterEvents]
  simp only [List.any_append, any_if_nil, List.any_cons, List.any_nil,
    geoSeg_any s v j (isDensifyAt i) (fun _ _ => rfl), isDensifyAt]
  cases hji : (j == i) <;> simp

theorem chunk_any_rebuild (opt : Opt) (s : LoopState) (v : Bool)
    (ckpts : List Nat) (j i : Nat) :
    (iterEvents opt s v ckpts j).any (isRebuildAt i)
      = ((j == i) && (densifyFires opt j || postRebuildFires opt j)) := by
  rw [iterEvents]
  simp only [List.any_append, any_if_nil, List.any_cons, List.any_nil,
    geoSeg_any s v j (isRebuildAt i) (fun _ _ => rfl), isRebuildAt]
  cases hji : (j == i) <;> simp

theorem chunk_any_reset (opt : Opt) (s : LoopState) (v : Bool)
    (ckpts : List Nat) (j i : Nat) :
    (iterEvents opt s v ckpts j).any (isResetAt i)
      = ((j == i) && resetFires opt j) := by
  rw [iterEvents]
  simp only [List.any_append, any_if_nil, List.any_cons, List.any_nil,
    geoSeg_any s v j (isResetAt i) (fun _ _ => rfl), isResetAt]
  cases hji : (j == i) <;> simp

theorem chunk_any_step (opt : Opt) (s : LoopState) (v : Bool)
    (ckpts : List Nat) (j i : Nat) :
    (iterEvents opt s v ckpts j).any (isStepAt i)
      = ((j == i) && stepFires opt j) := by
  rw [iterEvents]
  simp only [List.any_append, any_if_nil, List.any_cons, List.any_nil,
    geoSeg_any s v j (isStepAt i) (fun _ _ => rfl), isStepAt]
  cases hji : (j == i) <;> simp

theorem chunk_any_save (opt : Opt) (s : LoopState) (v : Bool)
    (ckpts : List Nat) (j i : Nat) :
    (iterEvents opt s v ckpts j).any (isSaveAt i)
      = ((j == i) && ckpts.contains j) := by
  rw [iterEvents]
  simp only [List.any_append, any_if_nil, List.any_cons, List.any_nil,
    geoSeg_any s v j (isSaveAt i) (fun _ _ => rfl), isSaveAt]
  cases hji : (j == i) <;> simp

theorem chunk_countP_stats (opt : Opt) (s : LoopState) (v : Bool)
    (ckpts : List Nat) (j i : Nat) :
    (iterEvents opt s v ckpts j).countP (isStatsAt i)
      = if ((j == i) && statsFires opt j) = true then 1 else 0 := by
  rw [iterEvents]
  simp only [List.countP_append, countP_if_nil, List.countP_cons,
    List.countP_nil, geoSeg_countP s v j (isStatsAt i) (fun _ _ => rfl), isStatsAt]
  by_cases hji : j = i
  · subst hji
    simp
  · have hb : (j == i) = false := by simpa using hji
    simp [hb]

theorem chunk_countP_step (opt : Opt) (s : LoopState) (v : Bool)
    (ckpts : List Nat) (j i : Nat) :
    (iterEvents opt s v ckpts j).countP (isStepAt i)
      = if ((j == i) && stepFires opt j) = true then 1 else 0 := by
  rw [iterEvents]
  simp only [List.countP_append, countP_if_nil, List.countP_cons,
    List.countP_nil, geoSeg_countP s v j (isStepAt i) (fun _ _ => rfl), isStepAt]
  by_cases hji : j = i
  · subst hji
    simp
  · have hb : (j == i) = false := by simpa using hji
    simp [hb]

theorem chunk_countP_zeroGrad (opt : Opt) (s : LoopState) (v : Bool)
    (ckpts : List Nat) (j i : Nat) :
    (iterEvents opt s v ckpts j).countP (isZeroGradAt i)
      = if ((j == i) && stepFires opt j) = true then 1 else 0 := by
  rw [iterEvents]
  simp only [List.countP_append, countP_if_nil, List.countP_cons,
    List.countP_nil, geoSeg_countP s v j (isZeroGradAt i) (fun _ _ => rfl), isZeroGradAt]
  by_cases hji : j = i
  · subst hji
    simp
  · have hb : (j == i) = false := by simpa using hji
    simp [hb]

theorem runFrom_any (opt : Opt) (vis : Nat → Bool) (ckpts : List Nat)
    (p : Event → Bool) (C : Nat → Bool) (i : Nat)
    (hch : ∀ s j v, (iterEvents opt s v ckpts j).any p = ((j == i) && C j)) :
    ∀ (l : List Nat) (s : LoopState),
      (runFrom opt vis ckpts l s).any p = (decide (i ∈ l) && C i) := by
  intro l
  induction l with
  | nil => intro s; simp [runFrom]
  | cons j rest ih =>
      intro s
      rw [runFrom, List.any_append, hch, ih]
      by_cases hji : j = i
      · subst hji
        simp only [List.mem_cons, beq_self_eq_true, Bool.true_and]
        cases hCr : C j <;> simp
      · have hb : (j == i) = false := by simpa using hji
        simp [List.mem_cons, hb, Ne.symm hji]

theorem runFrom_countP (opt : Opt) (vis : Nat → Bool) (ckpts : List Nat)
    (p : Event → Bool) (C : Nat → Bool) (i : Nat)
    (hch : ∀ s j v, (iterEvents opt s v ckpts j).countP p
        = if ((j == i) && C j) = true then 1 else 0) :
    ∀ (l : List Nat) (s : LoopState), l.Nodup →
      (runFrom opt vis ckpts l s).countP p
        = if (decide (i ∈ l) && C i) = true then 1 else 0 := by
  intro l
  induction l with
  | nil => intro s _; simp [runFrom]
  | cons j rest ih =>
      intro s hnd
      rw [runFrom, List.countP_append, hch,
        ih (stepState opt j s) (List.Nodup.of_cons hnd)]
      by_cases hji : j = i
      · subst hji
        have hnotin : j ∉ rest := (List.nodup_cons.mp hnd).1
        simp [hnotin]
      · have hb : (j == i) = false := by simpa using hji
        simp [List.mem_cons, hb, Ne.symm hji]

theorem mem_iterList {f t i : Nat} : i ∈ iterList f t ↔ f < i ∧ i ≤ t := by
  unfold iterList
  rw [List.mem_range'_1]
  omega

theorem nodup_iterList (f t : Nat) : (iterList f t).Nodup :=
  List.nodup_range' _ _

/-- Occurrence of the gradient-statistics update in a full training trace. -/
theorem training_hasStatsAt (opt : Opt) (vis : Nat → Bool) (ckpts : List Nat)
    (c : Option Nat) (i : Nat) :
    hasStatsAt (training opt vis ckpts c) i
      = (decide (c.getD 0 < i ∧ i ≤ opt.iterations) && statsFires opt i) := by
  unfold hasStatsAt training
  rw [runFrom_any opt vis ckpts _ (statsFires opt) i
    (fun s j v => chunk_any_stats opt s v ckpts j i)]
  have hd : decide (i ∈ iterList (c.getD 0) opt.iterations)
      = decide (c.getD 0 < i ∧ i ≤ opt.iterations) :=
    decide_eq_decide.mpr mem_iterList
  rw [hd]

/-- Occurrence of a densify_and_prune call in a full training trace. -/
theorem training_hasDensifyAt (opt : Opt) (vis : Nat → Bool) (ckpts : List Nat)
    (c : Option Nat) (i : Nat) :
    hasDensifyAt (training opt vis ckpts c) i
      = (decide (c.getD 0 < i ∧ i ≤ opt.iterations) && densifyFires opt i) := by
  unfold hasDensifyAt training
  rw [runFrom_any opt vis ckpts _ (densifyFires opt) i
    (fun s j v => chunk_any_densify opt s v ckpts j i)]
  have hd : decide (i ∈ iterList (c.getD 0) opt.iterations)
      = decide (c.getD 0 < i ∧ i ≤ opt.iterations) :=
    decide_eq_decide.mpr mem_iterList
  rw [hd]

/-- Occurrence of a neighbor-graph rebuild (findKNN) in a full training
trace: it happens with a densify call or as the post-window refresh. -/
theorem training_hasRebuildAt (opt : Opt) (vis : Nat → Bool) (ckpts : List Nat)
    (c : Option Nat) (i : Nat) :
    hasRebuildAt (training opt vis ckpts c) i
      = (decide (c.getD 0 < i ∧ i ≤ opt.iterations) &&
          (densifyFires opt i || postRebuildFires opt i)) := by
  unfold hasRebuildAt training
  rw [runFrom_any opt vis ckpts _
    (fun j => densifyFires opt j || postRebuildFires opt j) i
    (fun s j v => chunk_any_rebuild opt s v ckpts j i)]
  have hd : decide (i ∈ iterList (c.getD 0) opt.iterations)
      = decide (c.getD 0 < i ∧ i ≤ opt.iterations) :=
    decide_eq_decide.mpr mem_iterList
  rw [hd]

/-- Occurrence of reset_opacity in a full training trace. -/
theorem training_hasResetAt (opt : Opt) (vis : Nat → Bool) (ckpts : List Nat)
    (c : Option Nat) (i : Nat) :
    hasResetAt (training opt vis ckpts c) i
      = (decide (c.getD 0 < i ∧ i ≤ opt.iterations) && resetFires opt i) := by
  unfold hasResetAt training
  rw [runFrom_any opt vis ckpts _ (resetFires opt) i
    (fun s j v => chunk_any_reset opt s v ckpts j i)]
  have hd : decide (i ∈ iterList (c.getD 0) opt.iterations)
      = decide (c.getD 0 < i ∧ i ≤ opt.iterations) :=
    decide_eq_decide.mpr mem_iterList
  rw [hd]

/-- Occurrence of the optimizer step in a full training trace. -/
theorem training_hasStepAt (opt : Opt) (vis : Nat → Bool) (ckpts : List Nat)
    (c : Option Nat) (i : Nat) :
    hasStepAt (training opt vis ckpts c) i
      = (decide (c.getD 0 < i ∧ i ≤ opt.iterations) && stepFires opt i) := by
  unfold hasStepAt training
  rw [runFrom_any opt vis ckpts _ (stepFires opt) i
    (fun s j v => chunk_any_step opt s v ckpts j i)]
  have hd : decide (i ∈ iterList (c.getD 0) opt.iterations)
      = decide (c.getD 0 < i ∧ i ≤ opt.iterations) :=
    decide_eq_decide.mpr mem_iterList
  rw [hd]

/-- Occurrence of the backward pass in a full training trace: exactly the
executed iterations. -/
theorem training_hasBackwardAt (opt : Opt) (vis : Nat → Bool)
    (ckpts : List Nat) (c : Option Nat) (i : Nat) :
    hasBackwardAt (training opt vis ckpts c) i
      = decide (c.getD 0 < i ∧ i ≤ opt.iterations) := by
  unfold hasBackwardAt training
  have h := runFrom_any opt vis ckpts (isBackwardAt i) (fun _ => true) i
    (fun s j v => by rw [chunk_any_backward opt s v ckpts j i]; simp)
    (iterList (c.getD 0) opt.iterations) initState
  rw [h, Bool.and_true, decide_eq_decide]
  exact mem_iterList

/-- Occurrence of a checkpoint save in a full training trace. -/
theorem training_hasSaveAt (opt : Opt) (vis : Nat → Bool) (ckpts : List Nat)
    (c : Option Nat) (i : Nat) :
    hasSaveAt (training opt vis ckpts c) i
      = (decide (c.getD 0 < i ∧ i ≤ opt.iterations) && ckpts.contains i) := by
  unfold hasSaveAt training
  rw [runFrom_any opt vis ckpts _ (fun j => ckpts.contains j) i
    (fun s j v => chunk_any_save opt s v ckpts j i)]
  have hd : decide (i ∈ iterList (c.getD 0) opt.iterations)
      = decide (c.getD 0 < i ∧ i ≤ opt.iterations) :=
    decide_eq_decide.mpr mem_iterList
  rw [hd]

/-- Count of gradient-statistics updates at a given iteration in a full
training trace: one on executed iterations inside the window, zero
otherwise. -/
theorem training_countP_stats (opt : Opt) (vis : Nat → Bool)
    (ckpts : List Nat) (c : Option Nat) (i : Nat) :
    (training opt vis ckpts c).countP (isStatsAt i)
      = if (decide (c.getD 0 < i ∧ i ≤ opt.iterations) && statsFires opt i)
            = true then 1 else 0 := by
  unfold training
  rw [runFrom_countP opt vis ckpts _ (statsFires opt) i
    (fun s j v => chunk_countP_stats opt s v ckpts j i)
    (iterList (c.getD 0) opt.iterations) initState
    (nodup_iterList _ _)]
  have hd : decide (i ∈ iterList (c.getD 0) opt.iterations)
      = decide (c.getD 0 < i ∧ i ≤ opt.iterations) :=
    decide_eq_decide.mpr mem_iterList
  rw [hd]

/-- Count of optimizer steps at a given iteration in a full training trace. -/
theorem training_countP_step (opt : Opt) (vis : Nat → Bool)
    (ckpts : List Nat) (c : Option Nat) (i : Nat) :
    (training opt vis ckpts c).countP (isStepAt i)
      = if (decide (c.getD 0 < i ∧ i ≤ opt.iterations) && stepFires opt i)
            = true then 1 else 0 := by
  unfold training
  rw [runFrom_countP opt vis ckpts _ (stepFires opt) i
    (fun s j v => chunk_countP_step opt s v ckpts j i)
    (iterList (c.getD 0) opt.iterations) initState
    (nodup_iterList _ _)]
  have hd : decide (i ∈ iterList (c.getD 0) opt.iterations)
      = decide (c.getD 0 < i ∧ i ≤ opt.iterations) :=
    decide_eq_decide.mpr mem_iterList
  rw [hd]

/-- Count of gradient-buffer clears at a given iteration in a full training
trace. -/
theorem training_countP_zeroGrad (opt : Opt) (vis : Nat → Bool)
    (ckpts : List Nat) (c : Option Nat) (i : Nat) :
    (training opt vis ckpts c).countP (isZeroGradAt i)
      = if (decide (c.getD 0 < i ∧ i ≤ opt.iterations) && stepFires opt i)
            = true then 1 else 0 := by
  unfold training
  rw [runFrom_countP opt vis ckpts _ (stepFires opt) i
    (fun s j v => chunk_countP_zeroGrad opt s v ckpts j i)
    (iterList (c.getD 0) opt.iterations) initState
    (nodup_iterList _ _)]
  have hd : decide (i ∈ iterList (c.getD 0) opt.iterations)
      = decide (c.getD 0 < i ∧ i ≤ opt.iterations) :=
    decide_eq_decide.mpr mem_iterList
  rw [hd]

/-! ## Helper lemmas: the KNN graph is always built against the current
structural population version -/

/-- Freshness invariant of the loop state: if `KNN_index` is populated, it was
built against the current structural population version. -/
def knnFresh (s : LoopState) : Prop :=
  ∀ v, s.knnVersion = some v → v = s.popVersion

theorem initState_fresh : knnFresh initState := by
  intro v h
  simp [initState] at h

theorem stepState_fresh (opt : Opt) (i : Nat) (s : LoopState)
    (hf : knnFresh s) : knnFresh (stepState opt i s) := by
  unfold stepState
  split_ifs with h1 h2
  · intro v h
    simp at h ⊢
    omega
  · intro v h
    simp at h ⊢
    omega
  · exact hf

/-- Membership in `e ∈ if b then l else []` implies membership in l. -/
theorem mem_if_nil {e : Event} {b : Bool} {l : List Event}
    (h : e ∈ if b then l else []) : e ∈ l := by
  cases b
  · simp at h
  · simpa using h

/-- A geometric-consistency event in an iteration's event list comes from the
geo segment: it carries this iteration's number, the graph version currently
stored in the state, and the current structural version, and requires
visibility. -/
theorem geoTerm_mem_chunk {opt : Opt} {s : LoopState} {v : Bool}
    {ckpts : List Nat} {j i gv pv : Nat}
    (h : Event.geoTerm i gv pv ∈ iterEvents opt s v ckpts j) :
    i = j ∧ s.knnVersion = some gv ∧ pv = s.popVersion ∧ v = true := by
  unfold iterEvents at h
  simp only [List.append_assoc, List.mem_append] at h
  rcases h with h | h | h | h | h | h | h | h
  · unfold geoSeg at h
    cases hk : s.knnVersion with
    | none => rw [hk] at h; simp at h
    | some gv0 =>
        rw [hk] at h
        cases hv : v
        · rw [hv] at h; simp at h
        · rw [hv] at h
          simp at h
          refine ⟨h.1, ?_, h.2.2, rfl⟩
          rw [h.2.1]
  · simp at h
  · exact absurd (mem_if_nil h) (by simp)
  · exact absurd (mem_if_nil h) (by simp)
  · exact absurd (mem_if_nil h) (by simp)
  · exact absurd (mem_if_nil h) (by simp)
  · exact absurd (mem_if_nil h) (by simp)
  · exact absurd (mem_if_nil h) (by simp)

/-- Along any run from a fresh state, every geometric-consistency event
indexes the graph at the current structural version and occurs only on a
visible iteration. -/
theorem geoTerm_mem_runFrom (opt : Opt) (vis : Nat → Bool) (ckpts : List Nat) :
    ∀ (l : List Nat) (s : LoopState), knnFresh s →
      ∀ i gv pv, Event.geoTerm i gv pv ∈ runFrom opt vis ckpts l s →
        gv = pv ∧ vis i = true := by
  intro l
  induction l with
  | nil =>
      intro s _ i gv pv h
      simp [runFrom] at h
  | cons j rest ih =>
      intro s hf i gv pv h
      rw [runFrom] at h
      rcases List.mem_append.mp h with h | h
      · obtain ⟨hij, hk, hpv, hv⟩ := geoTerm_mem_chunk h
        subst hij
        exact ⟨by rw [hpv]; exact hf gv hk, hv⟩
      · exact ih (stepState opt j s) (stepState_fresh opt j s hf) i gv pv h

/-- Every geometric-consistency event in a full training trace indexes the
KNN graph against the exact structural population version that is live when
the loss is computed, and occurs only on an iteration with at least one
visible primitive. -/
theorem training_geoTerm (opt : Opt) (vis : Nat → Bool) (ckpts : List Nat)
    (c : Option Nat) (i gv pv : Nat)
    (h : Event.geoTerm i gv pv ∈ training opt vis ckpts c) :
    gv = pv ∧ vis i = true :=
  geoTerm_mem_runFrom opt vis ckpts _ initState initState_fresh i gv pv h

/-! ## Helper lemmas: no geometric term before the first rebuild -/

/-- Whether a trace contains any geometric-consistency event. -/
def hasGeo (l : List Event) : Bool :=
  l.any fun e => match e with
    | Event.geoTerm _ _ _ => true
    | _ => false

theorem geoAfterRebuildAux_true : ∀ l, geoAfterRebuildAux true l = true := by
  intro l
  induction l with
  | nil => rfl
  | cons e rest ih => cases e <;> simp [geoAfterRebuildAux, ih]

theorem geoAfterRebuildAux_append (l₁ l₂ : List Event) :
    ∀ seen, geoAfterRebuildAux seen (l₁ ++ l₂)
      = (geoAfterRebuildAux seen l₁ &&
          geoAfterRebuildAux (seen || hasRebuild l₁) l₂) := by
  induction l₁ with
  | nil => intro seen; simp [geoAfterRebuildAux, hasRebuild]
  | cons e rest ih =>
      intro seen
      cases e <;>
        simp [geoAfterRebuildAux, hasRebuild, ih, List.any_cons,
          geoAfterRebuildAux_true, Bool.and_assoc]

theorem geoAfterRebuildAux_of_no_geo :
    ∀ (l : List Event) (seen : Bool), hasGeo l = false →
      geoAfterRebuildAux seen l = true := by
  intro l
  induction l with
  | nil => intro seen _; rfl
  | cons e rest ih =>
      intro seen h
      unfold hasGeo at h
      rw [List.any_cons, Bool.or_eq_false_iff] at h
      obtain ⟨hhead, hrest⟩ := h
      have hrest2 : hasGeo rest = false := hrest
      cases e <;>
        simp only [geoAfterRebuildAux] <;>
        first
          | exact geoAfterRebuildAux_true rest
          | exact ih seen hrest2
          | simp at hhead

/-- An iteration whose incoming state has no KNN graph emits no geometric
term. -/
theorem chunk_hasGeo_none (opt : Opt) (s : LoopState) (v : Bool)
    (ckpts : List Nat) (j : Nat) (hk : s.knnVersion = none) :
    hasGeo (iterEvents opt s v ckpts j) = false := by
  unfold hasGeo iterEvents geoSeg
  rw [hk]
  simp only [List.any_append, any_if_nil, List.any_cons, List.any_nil]
  cases densifyFires opt j <;> cases statsFires opt j <;>
    cases resetFires opt j <;> cases postRebuildFires opt j <;>
    cases stepFires opt j <;> cases ckpts.contains j <;> rfl

/-- An iteration contains a rebuild event iff densification or the
post-window refresh fires on it. -/
theorem chunk_hasRebuild (opt : Opt) (s : LoopState) (v : Bool)
    (ckpts : List Nat) (j : Nat) :
    hasRebuild (iterEvents opt s v ckpts j)
      = (densifyFires opt j || postRebuildFires opt j) := by
  unfold hasRebuild iterEvents geoSeg
  cases hk : s.knnVersion <;> cases v <;>
    simp only [List.any_append, any_if_nil, List.any_cons, List.any_nil] <;>
    cases densifyFires opt j <;> cases statsFires opt j <;>
      cases resetFires opt j <;> cases postRebuildFires opt j <;>
      cases stepFires opt j <;> cases ckpts.contains j <;> rfl

/-- If the state gains a KNN graph across an iteration, that iteration fired
a rebuild. -/
theorem stepState_rebuild_link (opt : Opt) (i : Nat) (s : LoopState)
    (hk : s.knnVersion = none)
    (hsome : (stepState opt i s).knnVersion.isSome = true) :
    densifyFires opt i = true ∨ postRebuildFires opt i = true := by
  unfold stepState at hsome
  split_ifs at hsome with h1 h2
  · exact Or.inl h1
  · exact Or.inr h2
  · rw [hk] at hsome
    simp at hsome

/-- Along any run, if the incoming state can only have a graph when a rebuild
was already seen, then every geometric term is preceded by a rebuild. -/
theorem runFrom_geoAfterRebuild (opt : Opt) (vis : Nat → Bool)
    (ckpts : List Nat) :
    ∀ (l : List Nat) (s : LoopState) (seen : Bool),
      (s.knnVersion.isSome = true → seen = true) →
      geoAfterRebuildAux seen (runFrom opt vis ckpts l s) = true := by
  intro l
  induction l with
  | nil => intro s seen _; rfl
  | cons j rest ih =>
      intro s seen hseen
      rw [runFrom, geoAfterRebuildAux_append, Bool.and_eq_true]
      refine ⟨?_, ?_⟩
      · cases hseenv : seen with
        | true => exact geoAfterRebuildAux_true _
        | false =>
            have hk : s.knnVersion = none := by
              cases hkv : s.knnVersion with
              | none => rfl
              | some w =>
                  have := hseen (by simp [hkv])
                  rw [hseenv] at this
                  exact absurd this (by simp)
            exact geoAfterRebuildAux_of_no_geo _ _
              (chunk_hasGeo_none opt s (vis j) ckpts j hk)
      · apply ih
        intro hsome
        cases hseenv : seen with
        | true => simp
        | false =>
            have hk : s.knnVersion = none := by
              cases hkv : s.knnVersion with
              | none => rfl
              | some w =>
                  have := hseen (by simp [hkv])
                  rw [hseenv] at this
                  exact absurd this (by simp)
            rcases stepState_rebuild_link opt j s hk hsome with h | h <;>
              simp [chunk_hasRebuild, h]

/-- In a full training trace, every geometric-consistency event is strictly
preceded by a neighbor-graph rebuild. -/
theorem training_geoAfterRebuild (opt : Opt) (vis : Nat → Bool)
    (ckpts : List Nat) (c : Option Nat) :
    geoAfterRebuildAux false (training opt vis ckpts c) = true := by
  unfold training
  exact runFrom_geoAfterRebuild opt vis ckpts _ initState false
    (by intro h; simp [initState] at h)

/-! ## Helper lemmas: the shape of one iteration's event list -/

/-- A densification iteration also fires the stats update (its guard is
nested inside the same window test). -/
theorem densifyFires_statsFires (opt : Opt) (i : Nat)
    (hd : densifyFires opt i = true) : statsFires opt i = true := by
  unfold densifyFires at hd
  rw [Bool.and_eq_true, Bool.and_eq_true] at hd
  exact hd.1.1

/-- Shape of a stats-firing iteration: the backward pass is immediately
followed by the gradient-statistics update, with only the geometric-term
segment before them and everything else after. -/
theorem chunk_stats_shape (opt : Opt) (s : LoopState) (v : Bool)
    (ckpts : List Nat) (i : Nat) (hs : statsFires opt i = true) :
    iterEvents opt s v ckpts i
      = geoSeg s v i ++ [Event.backward i, Event.statsUpdate i]
        ++ ((if densifyFires opt i then
              [Event.densify i (sizeThresholdArg opt i), Event.rebuild i]
             else [])
            ++ (if resetFires opt i then [Event.resetOpacity i] else [])
            ++ (if postRebuildFires opt i then [Event.rebuild i] else [])
            ++ (if stepFires opt i then [Event.optStep i, Event.zeroGrad i]
                else [])
            ++ (if ckpts.contains i then [Event.saveCkpt i] else [])) := by
  unfold iterEvents
  rw [if_pos hs]
  simp [List.append_assoc]

/-- Shape of a densification iteration: the densify_and_prune call is
immediately followed by the findKNN rebuild; the geometric segment, backward
pass and stats update come before, everything else after. -/
theorem chunk_densify_shape (opt : Opt) (s : LoopState) (v : Bool)
    (ckpts : List Nat) (i : Nat) (hd : densifyFires opt i = true) :
    iterEvents opt s v ckpts i
      = (geoSeg s v i ++ [Event.backward i, Event.statsUpdate i])
        ++ [Event.densify i (sizeThresholdArg opt i), Event.rebuild i]
        ++ ((if resetFires opt i then [Event.resetOpacity i] else [])
            ++ (if postRebuildFires opt i then [Event.rebuild i] else [])
            ++ (if stepFires opt i then [Event.optStep i, Event.zeroGrad i]
                else [])
            ++ (if ckpts.contains i then [Event.saveCkpt i] else [])) := by
  unfold iterEvents
  rw [if_pos (densifyFires_statsFires opt i hd), if_pos hd]
  simp [List.append_assoc]

/-- Shape of a stepping iteration: the optimizer step is immediately followed
by the gradient-buffer clear; every mutation segment of the iteration comes
before, only the checkpoint save after. -/
theorem chunk_step_shape (opt : Opt) (s : LoopState) (v : Bool)
    (ckpts : List Nat) (i : Nat) (ho : stepFires opt i = true) :
    iterEvents opt s v ckpts i
      = (geoSeg s v i ++ [Event.backward i]
          ++ (if statsFires opt i then [Event.statsUpdate i] else [])
          ++ (if densifyFires opt i then
                [Event.densify i (sizeThresholdArg opt i), Event.rebuild i]
              else [])
          ++ (if resetFires opt i then [Event.resetOpacity i] else [])
          ++ (if postRebuildFires opt i then [Event.rebuild i] else []))
        ++ [Event.optStep i, Event.zeroGrad i]
        ++ (if ckpts.contains i then [Event.saveCkpt i] else []) := by
  unfold iterEvents
  rw [if_pos ho]

/-- The geometric segment never contains a densify, step or stats event. -/
theorem geoSeg_no_densify (s : LoopState) (v : Bool) (i : Nat) :
    ∀ j st, Event.densify j st ∉ geoSeg s v i := by
  intro j st h
  unfold geoSeg at h
  cases hk : s.knnVersion <;> rw [hk] at h
  · simp at h
  · cases hv : v <;> rw [hv] at h <;> simp at h

theorem geoSeg_no_step (s : LoopState) (v : Bool) (i : Nat) :
    ∀ j, Event.optStep j ∉ geoSeg s v i := by
  intro j h
  unfold geoSeg at h
  cases hk : s.knnVersion <;> rw [hk] at h
  · simp at h
  · cases hv : v <;> rw [hv] at h <;> simp at h

/-! ## Concrete instantiations used by counterexamples and witnesses -/

/-- At least one primitive visible on every iteration. -/
def visAll : Nat → Bool := fun _ => true

/-- iterations 3, window ending at 2: the last iterations run outside the
densification window. -/
def cfgA : Opt := ⟨3, 0, 2, 5, 7, false⟩

/-- iterations 4, window (0, 3), densification every iteration: densify at
iterations 1 and 2, geometric term live from iteration 2 on. -/
def cfgB : Opt := ⟨4, 0, 3, 1, 100, false⟩

/-- densify_from_iter 2 is itself a multiple of the densification
interval 2 and lies inside the window. -/
def cfgC : Opt := ⟨3, 2, 5, 2, 100, false⟩

/-- opacity reset interval 2 fires at iteration 2, before the densification
window opens at iteration 3. -/
def cfgD : Opt := ⟨4, 3, 10, 100, 2, false⟩

/-- two iterations; the second is the final one. -/
def cfgE : Opt := ⟨2, 0, 1, 5, 7, false⟩

/-- the densification window ends exactly at iteration 3000, a multiple of
the fixed post-window refresh interval. -/
def cfgF : Opt := ⟨3000, 0, 3000, 7, 100000, false⟩

/-- the window ends at 10 and the run reaches the post-window refresh
iteration 6000. -/
def cfgG : Opt := ⟨6000, 0, 10, 7, 1000000, false⟩

/-! ## C1 -/

/-- C1 is refuted as stated: with iterations = 3 and densify_until_iter = 2,
iteration 2 (which is ≤ the configured total) performs no
gradient-statistics update, because the update is guarded by
iteration < densify_until_iter. -/
theorem C1_counterexample :
    hasStatsAt (training cfgA visAll [] none) 2 = false
    ∧ 2 ≤ cfgA.iterations := by decide

/-- C1 (amended): the gradient-statistics update is performed exactly once
per executed iteration i with i < densifyUntilIter, and not at all at
iterations at or beyond densifyUntilIter; whenever it is performed, it
comes immediately after the backward pass of that iteration and before any
densify/prune decision of that iteration. -/
theorem C1_stats_once_after_backward (opt : Opt) (vis : Nat → Bool)
    (ckpts : List Nat) (i : Nat) :
    ((training opt vis ckpts none).countP (isStatsAt i)
        = if 1 ≤ i ∧ i ≤ opt.iterations ∧ i < opt.densify_until_iter then 1
          else 0)
    ∧ (statsFires opt i = true → ∀ (s : LoopState) (v : Bool),
        ∃ l₁ l₂, iterEvents opt s v ckpts i
            = l₁ ++ [Event.backward i, Event.statsUpdate i] ++ l₂
          ∧ ∀ st, Event.densify i st ∉ l₁) := by
  constructor
  · rw [training_countP_stats]
    simp only [Option.getD_none, statsFires, Bool.and_eq_true,
      decide_eq_true_eq]
    split_ifs with h1 h2 <;> first | rfl | omega
  · intro hs s v
    exact ⟨geoSeg s v i, _, chunk_stats_shape opt s v ckpts i hs,
      fun st => geoSeg_no_densify s v i i st⟩

theorem C1_witness :
    ((training cfgB visAll [] none).countP (isStatsAt 1)
        = if 1 ≤ 1 ∧ 1 ≤ cfgB.iterations ∧ 1 < cfgB.densify_until_iter then 1
          else 0)
    ∧ (∃ l₁ l₂, iterEvents cfgB initState true [] 1
          = l₁ ++ [Event.backward 1, Event.statsUpdate 1] ++ l₂
        ∧ ∀ st, Event.densify 1 st ∉ l₁) :=
  ⟨(C1_stats_once_after_backward cfgB visAll [] 1).1,
   (C1_stats_once_after_backward cfgB visAll [] 1).2 (by decide) initState
     true⟩

/-! ## C2 -/

/-- C2 is refuted as stated: with densify_from_iter = 2,
densification_interval = 2 and window end 5, iteration 2 equals
densifyFromIter, lies in [densifyFromIter, densifyUntilIter), is a multiple
of the interval and is executed, yet no densify_and_prune call happens
there (the code requires iteration > densify_from_iter, strictly). -/
theorem C2_counterexample :
    hasDensifyAt (training cfgC visAll [] none) 2 = false
    ∧ cfgC.densify_from_iter = 2
    ∧ 2 % cfgC.densification_interval = 0
    ∧ 2 < cfgC.densify_until_iter
    ∧ 2 ≤ cfgC.iterations := by decide

/-- C2 (amended): densifyAndPrune is invoked at iteration i iff i lies in
the open-below window (densifyFromIter, densifyUntilIter) — strictly greater
than densifyFromIter — i is executed, and i is a multiple of
densificationInterval; an iteration equal to densifyFromIter never triggers
a call. -/
theorem C2_densify_iff (opt : Opt) (vis : Nat → Bool) (ckpts : List Nat)
    (i : Nat) (h0 : 0 < opt.densification_interval) :
    hasDensifyAt (training opt vis ckpts none) i = true ↔
      (opt.densify_from_iter < i ∧ i < opt.densify_until_iter
        ∧ i ≤ opt.iterations ∧ i % opt.densification_interval = 0) := by
  rw [training_hasDensifyAt]
  simp only [Option.getD_none, densifyFires, statsFires, Bool.and_eq_true,
    decide_eq_true_eq, beq_iff_eq]
  generalize i % opt.densification_interval = r
  omega

theorem C2_witness :
    0 < cfgB.densification_interval
    ∧ hasDensifyAt (training cfgB visAll [] none) 1 = true :=
  ⟨by decide, (C2_densify_iff cfgB visAll [] 1 (by decide)).mpr (by decide)⟩

/-! ## C3 -/

/-- C3 is refuted as stated: with opacity_reset_interval = 2 and
densify_from_iter = 3, reset_opacity runs at iteration 2, which is outside
the densification window [3, 10) and not the white-background trigger
(white_background is false) — the modulo trigger has no lower bound at
densifyFromIter. -/
theorem C3_counterexample :
    hasResetAt (training cfgD visAll [] none) 2 = true
    ∧ 2 < cfgD.densify_from_iter
    ∧ cfgD.white_background = false := by decide

/-- C3 (amended): resetOpacity is invoked at executed iteration i iff
i < densifyUntilIter and (i is a multiple of opacityResetInterval, or the
background is white and i equals densifyFromIter); the two triggers are
independent conditions, and the modulo trigger is bounded only above by
densifyUntilIter — it can fire before densifyFromIter. -/
theorem C3_reset_iff (opt : Opt) (vis : Nat → Bool) (ckpts : List Nat)
    (i : Nat) (h0 : 0 < opt.opacity_reset_interval) :
    hasResetAt (training opt vis ckpts none) i = true ↔
      (1 ≤ i ∧ i ≤ opt.iterations ∧ i < opt.densify_until_iter
        ∧ (i % opt.opacity_reset_interval = 0
            ∨ (opt.white_background = true ∧ i = opt.densify_from_iter))) := by
  rw [training_hasResetAt]
  simp only [Option.getD_none, resetFires, statsFires, Bool.and_eq_true,
    Bool.or_eq_true, decide_eq_true_eq, beq_iff_eq]
  cases hw : opt.white_background <;> simp <;>
    generalize i % opt.opacity_reset_interval = r <;> omega

theorem C3_witness :
    0 < cfgD.opacity_reset_interval
    ∧ hasResetAt (training cfgD visAll [] none) 2 = true :=
  ⟨by decide, (C3_reset_iff cfgD visAll [] 2 (by decide)).mpr (by decide)⟩

/-! ## C4 -/

/-- C4 is refuted as stated: on the final iteration (iteration ==
opt.iterations) neither optimizer.step() nor zero_grad() is invoked,
because both are guarded by iteration < opt.iterations. -/
theorem C4_counterexample :
    hasStepAt (training cfgE visAll [] none) 2 = false
    ∧ cfgE.iterations = 2 := by decide

/-- C4 (amended): optimizer.step() and zero_grad() are each invoked exactly
once per executed iteration i with i < the configured total, and not at all
on the final iteration; on an iteration that both densifies and steps, the
densify_and_prune mutation completes before the optimizer step. -/
theorem C4_step_every_nonfinal (opt : Opt) (vis : Nat → Bool)
    (ckpts : List Nat) (i : Nat) :
    ((training opt vis ckpts none).countP (isStepAt i)
        = if 1 ≤ i ∧ i < opt.iterations then 1 else 0)
    ∧ ((training opt vis ckpts none).countP (isZeroGradAt i)
        = if 1 ≤ i ∧ i < opt.iterations then 1 else 0)
    ∧ (densifyFires opt i = true → stepFires opt i = true →
        ∀ (s : LoopState) (v : Bool), ∃ l₁ l₂,
          iterEvents opt s v ckpts i
              = l₁ ++ [Event.optStep i, Event.zeroGrad i] ++ l₂
            ∧ Event.densify i (sizeThresholdArg opt i) ∈ l₁) := by
  refine ⟨?_, ?_, ?_⟩
  · rw [training_countP_step]
    simp only [Option.getD_none, stepFires, Bool.and_eq_true,
      decide_eq_true_eq]
    split_ifs with h1 h2 <;> first | rfl | omega
  · rw [training_countP_zeroGrad]
    simp only [Option.getD_none, stepFires, Bool.and_eq_true,
      decide_eq_true_eq]
    split_ifs with h1 h2 <;> first | rfl | omega
  · intro hd ho s v
    refine ⟨_, _, chunk_step_shape opt s v ckpts i ho, ?_⟩
    simp [hd]

theorem C4_witness :
    ((training cfgB visAll [] none).countP (isStepAt 1)
        = if 1 ≤ 1 ∧ 1 < cfgB.iterations then 1 else 0)
    ∧ (∃ l₁ l₂, iterEvents cfgB initState true [] 1
          = l₁ ++ [Event.optStep 1, Event.zeroGrad 1] ++ l₂
        ∧ Event.densify 1 (sizeThresholdArg cfgB 1) ∈ l₁) :=
  ⟨(C4_step_every_nonfinal cfgB visAll [] 1).1,
   (C4_step_every_nonfinal cfgB visAll [] 1).2.2 (by decide) (by decide)
     initState true⟩

/-! ## C5 -/

/-- C5: the neighbor graph is never used stale.  First: on any densification
iteration the densify_and_prune event is immediately followed by the findKNN
rebuild event, unconditionally.  Second: every indexing of the graph by the
geometric-consistency loss in a full training trace happens against the
exact structural population version the graph was built from. -/
theorem C5_graph_never_stale :
    (∀ (opt : Opt) (s : LoopState) (v : Bool) (ckpts : List Nat) (i : Nat),
        densifyFires opt i = true →
        ∃ l₁ l₂, iterEvents opt s v ckpts i
            = l₁ ++ [Event.densify i (sizeThresholdArg opt i),
                     Event.rebuild i] ++ l₂)
    ∧ (∀ (opt : Opt) (vis : Nat → Bool) (ckpts : List Nat) (c : Option Nat)
        (i gv pv : Nat),
        Event.geoTerm i gv pv ∈ training opt vis ckpts c → gv = pv) := by
  constructor
  · intro opt s v ckpts i hd
    exact ⟨_, _, chunk_densify_shape opt s v ckpts i hd⟩
  · intro opt vis ckpts c i gv pv h
    exact (training_geoTerm opt vis ckpts c i gv pv h).1

theorem C5_witness :
    (∃ l₁ l₂, iterEvents cfgB initState true [] 1
        = l₁ ++ [Event.densify 1 (sizeThresholdArg cfgB 1),
                 Event.rebuild 1] ++ l₂)
    ∧ (1 : Nat) = 1 :=
  ⟨C5_graph_never_stale.1 cfgB initState true [] 1 (by decide),
   C5_graph_never_stale.2 cfgB visAll [] none 2 1 1 (by decide)⟩

/-! ## C6 -/

/-- C6: within any iteration on which densify_and_prune fires, the mutation
(and its compaction, modelled as the single densify event) completes before
any optimizer step of that iteration: the event list decomposes with the
densify/rebuild pair in the middle and no optimizer-step event before it. -/
theorem C6_mutation_before_step (opt : Opt) (s : LoopState) (v : Bool)
    (ckpts : List Nat) (i : Nat) (hd : densifyFires opt i = true) :
    ∃ l₁ l₂, iterEvents opt s v ckpts i
        = l₁ ++ [Event.densify i (sizeThresholdArg opt i),
                 Event.rebuild i] ++ l₂
      ∧ ∀ j, Event.optStep j ∉ l₁ := by
  refine ⟨_, _, chunk_densify_shape opt s v ckpts i hd, ?_⟩
  intro j h
  rcases List.mem_append.mp h with h | h
  · exact geoSeg_no_step s v i j h
  · simp at h

theorem C6_witness :
    ∃ l₁ l₂, iterEvents cfgB initState true [] 1
        = l₁ ++ [Event.densify 1 (sizeThresholdArg cfgB 1),
                 Event.rebuild 1] ++ l₂
      ∧ ∀ j, Event.optStep j ∉ l₁ :=
  C6_mutation_before_step cfgB initState true [] 1 (by decide)

/-! ## C7 -/

/-- A densify event in an iteration's event list carries this iteration's
number and the size_threshold argument computed on line 165, and occurs only
when densification fires. -/
theorem densify_mem_chunk {opt : Opt} {s : LoopState} {v : Bool}
    {ckpts : List Nat} {j i : Nat} {st : Option Nat}
    (h : Event.densify i st ∈ iterEvents opt s v ckpts j) :
    i = j ∧ st = sizeThresholdArg opt j ∧ densifyFires opt j = true := by
  unfold iterEvents at h
  simp only [List.append_assoc, List.mem_append] at h
  rcases h with h | h | h | h | h | h | h | h
  · exact absurd h (geoSeg_no_densify s v j i st)
  · simp at h
  · exact absurd (mem_if_nil h) (by simp)
  · cases hd : densifyFires opt j
    · rw [hd] at h
      simp at h
    · rw [hd] at h
      simp at h
      exact ⟨h.1, h.2, rfl⟩
  · exact absurd (mem_if_nil h) (by simp)
  · exact absurd (mem_if_nil h) (by simp)
  · exact absurd (mem_if_nil h) (by simp)
  · exact absurd (mem_if_nil h) (by simp)

/-- Along any run, every densify event carries the size_threshold argument
computed for its iteration. -/
theorem densify_mem_runFrom (opt : Opt) (vis : Nat → Bool)
    (ckpts : List Nat) :
    ∀ (l : List Nat) (s : LoopState) (i : Nat) (st : Option Nat),
      Event.densify i st ∈ runFrom opt vis ckpts l s →
        st = sizeThresholdArg opt i ∧ densifyFires opt i = true := by
  intro l
  induction l with
  | nil =>
      intro s i st h
      simp [runFrom] at h
  | cons j rest ih =>
      intro s i st h
      rw [runFrom] at h
      rcases List.mem_append.mp h with h | h
      · obtain ⟨hij, hst, hd⟩ := densify_mem_chunk h
        subst hij
        exact ⟨hst, hd⟩
      · exact ih (stepState opt j s) i st h

/-- C7: in every densify_and_prune call of a training run, the sizeThreshold
argument is None for all iterations up to and including the configured
boundary (opt.opacity_reset_interval) and is the fixed value 20 for all
iterations strictly past it. -/
theorem C7_size_threshold_schedule (opt : Opt) (vis : Nat → Bool)
    (ckpts : List Nat) (c : Option Nat) (i : Nat) (st : Option Nat)
    (h : Event.densify i st ∈ training opt vis ckpts c) :
    (i ≤ opt.opacity_reset_interval → st = none)
    ∧ (opt.opacity_reset_interval < i → st = some 20) := by
  obtain ⟨hst, _⟩ :=
    densify_mem_runFrom opt vis ckpts _ initState i st h
  subst hst
  unfold sizeThresholdArg
  constructor
  · intro hle
    rw [if_neg (by omega)]
  · intro hlt
    rw [if_pos hlt]

theorem C7_witness :
    (1 ≤ cfgB.opacity_reset_interval → (none : Option Nat) = none)
    ∧ (cfgB.opacity_reset_interval < 1 → (none : Option Nat) = some 20) :=
  C7_size_threshold_schedule cfgB visAll [] none 1 none (by decide)

/-! ## C8 -/

/-- C8 is refuted as stated: with densify_until_iter = 3000 (a multiple of
the fixed post-window interval 3000) and iterations = 3000, iteration 3000
is at the window end and a multiple of 3000, yet no rebuild happens there —
the post-window branch requires iteration > densify_until_iter, strictly,
and the densification branch requires iteration < densify_until_iter. -/
theorem C8_counterexample :
    hasRebuildAt (training cfgF visAll [] none) 3000 = false
    ∧ cfgF.densify_until_iter = 3000
    ∧ 3000 % 3000 = 0
    ∧ 3000 ≤ cfgF.iterations := by
  refine ⟨?_, rfl, by decide, by decide⟩
  rw [training_hasRebuildAt]
  decide

/-- C8 (amended): at or past the densification window end, the neighbor
graph is rebuilt exactly at executed iterations strictly beyond
densifyUntilIter that are multiples of the fixed interval 3000 (coarser than
a densification interval < 3000), and at no other such iteration — in
particular not at iteration densifyUntilIter itself. -/
theorem C8_post_window_refresh (opt : Opt) (vis : Nat → Bool)
    (ckpts : List Nat) (i : Nat) (hpost : opt.densify_until_iter ≤ i) :
    hasRebuildAt (training opt vis ckpts none) i = true ↔
      (opt.densify_until_iter < i ∧ i ≤ opt.iterations ∧ i % 3000 = 0) := by
  rw [training_hasRebuildAt]
  simp only [Option.getD_none, densifyFires, statsFires, postRebuildFires,
    Bool.and_eq_true, Bool.or_eq_true, decide_eq_true_eq, beq_iff_eq]
  constructor
  · rintro ⟨⟨h0, h1⟩, hdp⟩
    rcases hdp with ⟨⟨hlt, hfrom⟩, hmod⟩ | ⟨hgt, hmod⟩
    · omega
    · exact ⟨hgt, h1, hmod⟩
  · rintro ⟨hgt, hle, hmod⟩
    exact ⟨⟨by omega, hle⟩, Or.inr ⟨hgt, hmod⟩⟩

theorem C8_witness :
    cfgG.densify_until_iter ≤ 6000
    ∧ hasRebuildAt (training cfgG visAll [] none) 6000 = true :=
  ⟨by decide,
   (C8_post_window_refresh cfgG visAll [] 6000 (by decide)).mpr (by decide)⟩

/-! ## C9 -/

/-- C9: a checkpoint save at iteration k records the iteration counter k
(the saveCkpt k event models torch.save((capture(), k), ...)), and it
happens exactly on executed iterations listed in checkpoint_iterations;
training restarted from a checkpoint saved at iteration k executes exactly
the iterations k+1 through the same configured total (the backward pass
runs unconditionally once per executed iteration). -/
theorem C9_checkpoint_resume (opt : Opt) (vis : Nat → Bool)
    (ckpts : List Nat) (k : Nat) :
    (hasSaveAt (training opt vis ckpts none) k = true ↔
      (ckpts.contains k = true ∧ 1 ≤ k ∧ k ≤ opt.iterations))
    ∧ (∀ i, hasBackwardAt (training opt vis ckpts (some k)) i = true ↔
        (k + 1 ≤ i ∧ i ≤ opt.iterations)) := by
  constructor
  · rw [training_hasSaveAt]
    simp only [Option.getD_none, Bool.and_eq_true, decide_eq_true_eq]
    constructor
    · rintro ⟨⟨h0, h1⟩, hc⟩
      exact ⟨hc, h0, h1⟩
    · rintro ⟨hc, h0, h1⟩
      exact ⟨⟨h0, h1⟩, hc⟩
  · intro i
    rw [training_hasBackwardAt]
    simp only [Option.getD_some, decide_eq_true_eq]
    omega

theorem C9_witness :
    hasSaveAt (training cfgB visAll [2] none) 2 = true
    ∧ hasBackwardAt (training cfgB visAll [2] (some 2)) 3 = true :=
  ⟨((C9_checkpoint_resume cfgB visAll [2] 2).1).mpr (by decide),
   ((C9_checkpoint_resume cfgB visAll [2] 2).2 3).mpr (by decide)⟩

/-! ## C10 -/

/-- C10: in every full training trace, (1) no geometric-consistency term is
ever added to the loss before the first neighbor-graph rebuild; (2) whenever
the term is added at iteration i, at least one primitive is visible at i;
(3) for every iteration before the window end, a rebuild happens at i iff a
densify_and_prune call happens at i — so until the window ends (and in
particular for the first rebuild) every rebuild is produced by a densify
call. -/
theorem C10_geo_term_gating (opt : Opt) (vis : Nat → Bool)
    (ckpts : List Nat) (c : Option Nat) :
    geoAfterRebuildAux false (training opt vis ckpts c) = true
    ∧ (∀ i gv pv, Event.geoTerm i gv pv ∈ training opt vis ckpts c →
        vis i = true)
    ∧ (∀ i, i < opt.densify_until_iter →
        hasRebuildAt (training opt vis ckpts c) i
          = hasDensifyAt (training opt vis ckpts c) i) := by
  refine ⟨training_geoAfterRebuild opt vis ckpts c, ?_, ?_⟩
  · intro i gv pv h
    exact (training_geoTerm opt vis ckpts c i gv pv h).2
  · intro i hi
    rw [training_hasRebuildAt, training_hasDensifyAt]
    have hp : postRebuildFires opt i = false := by
      unfold postRebuildFires
      have hlt : decide (opt.densify_until_iter < i) = false := by
        simp
        omega
      rw [hlt, Bool.false_and]
    rw [hp, Bool.or_false]

theorem C10_witness :
    geoAfterRebuildAux false (training cfgB visAll [] none) = true
    ∧ visAll 2 = true
    ∧ hasRebuildAt (training cfgB visAll [] none) 1
        = hasDensifyAt (training cfgB visAll [] none) 1 :=
  ⟨(C10_geo_term_gating cfgB visAll [] none).1,
   (C10_geo_term_gating cfgB visAll [] none).2.1 2 1 1 (by decide),
   (C10_geo_term_gating cfgB visAll [] none).2.2 1 (by decide)⟩
